import Mathlib

/-!
# JOS scheduler and kernel monitor (kern/sched.c, kern/monitor.c)

A shallow embedding of `sched_yield`, `sched_halt` and the monitor commands
`mon_backtrace`, `mon_showmappings`, `mon_setflags`, `mon_memdump`, followed by
the properties established about them.

Conventions.
* The environment table `envs` is a list of slots; `NENV` is its length.
* `curenv` is a pointer into `envs`, hence an optional index below `NENV`.
* `uint32_t` values are naturals reduced modulo `2^32` where the C code can wrap.
* Calls that never return (`env_run`, the halt loop, the monitor loop) end the
  modelled execution.
* Loops that the C code does not bound are given a fuel argument; running out
  of fuel is reported as `Status.running`.
-/

namespace JOS

/-! ## Data model of the scheduler -/

/-- Modelled from the spec: the environment status enumeration (declared in
inc/env.h, which is not part of the sources at hand). The code of
kern/sched.c compares against `ENV_RUNNABLE`, `ENV_RUNNING` and `ENV_DYING`. -/
inductive EnvStatus where
  | ENV_FREE
  | ENV_DYING
  | ENV_RUNNABLE
  | ENV_RUNNING
  deriving DecidableEq, Repr

/-- The fields of `struct Env` that kern/sched.c reads. -/
structure Env where
  env_id : Nat
  env_status : EnvStatus
  priority : Int
  deriving DecidableEq, Repr

/-- The locals `highestEnv`, `nextEqualEnv`, `highestPri` of `sched_yield`;
environment pointers are slot indices. -/
structure Scan where
  highestEnv : Option Nat
  nextEqualEnv : Option Nat
  highestPri : Int
  deriving DecidableEq, Repr

/-- The terminal action of `sched_yield`: `run i` is the call
`env_run(&envs[i])`, which never returns; `halt` is falling through to the call
of `sched_halt`. -/
inductive Outcome where
  | run (slot : Nat)
  | halt
  deriving DecidableEq, Repr

/-- One iteration of the `for` loop of `sched_yield` (sched.c lines 42-58). -/
def scanBody (envs : List Env) (startingEnv : Nat) (s : Scan) (inc : Nat) : Scan :=
  let i := (startingEnv + inc) % envs.length
  match envs[i]? with
  | none => s
  | some e =>
    if e.env_status = EnvStatus.ENV_RUNNABLE then
      if e.priority < s.highestPri then
        { highestEnv := some i, nextEqualEnv := none, highestPri := e.priority }
      else if s.nextEqualEnv = none ∧ e.priority = s.highestPri then
        { s with nextEqualEnv := some i }
      else s
    else s

/-- The loop `for (inc; inc < NENV; inc++)` of `sched_yield`; `todo` is the
number of iterations left, `NENV - inc`. -/
def scanLoop (envs : List Env) (startingEnv : Nat) : Nat → Nat → Scan → Scan
  | 0, _, s => s
  | todo + 1, inc, s => scanLoop envs startingEnv todo (inc + 1) (scanBody envs startingEnv s inc)

/-- The value of `startingEnv` (sched.c line 32). `ENVX` is the macro of
inc/env.h, taken as a parameter. -/
def startingEnv (ENVX : Nat → Nat) (envs : List Env) (curenv : Option (Fin envs.length)) : Nat :=
  match curenv with
  | some c => ENVX (envs.get c).env_id % envs.length
  | none => 0

/-- The initial value of `inc` (sched.c line 33). -/
def firstInc {n : Nat} (curenv : Option (Fin n)) : Nat :=
  match curenv with
  | some _ => 1
  | none => 0

/-- The initial value of `highestPri` (sched.c line 38). -/
def firstPri (envs : List Env) (curenv : Option (Fin envs.length)) : Int :=
  match curenv with
  | some c => (envs.get c).priority
  | none => 100

/-- The state of the locals when the loop of `sched_yield` is left. -/
def scanResult (ENVX : Nat → Nat) (envs : List Env) (curenv : Option (Fin envs.length)) : Scan :=
  scanLoop envs (startingEnv ENVX envs curenv) (envs.length - firstInc curenv) (firstInc curenv)
    { highestEnv := none, nextEqualEnv := none, highestPri := firstPri envs curenv }

/-- The resolution at the end of `sched_yield` (sched.c lines 67-77). -/
def resolve (envs : List Env) (curenv : Option (Fin envs.length)) (s : Scan) : Outcome :=
  match s.highestEnv with
  | some i => Outcome.run i
  | none =>
    match s.nextEqualEnv with
    | some i => Outcome.run i
    | none =>
      match curenv with
      | some c =>
        if (envs.get c).env_status = EnvStatus.ENV_RUNNING then Outcome.run c.val
        else Outcome.halt
      | none => Outcome.halt

/-- The function `sched_yield` of kern/sched.c. -/
def sched_yield (ENVX : Nat → Nat) (envs : List Env) (curenv : Option (Fin envs.length)) : Outcome :=
  resolve envs curenv (scanResult ENVX envs curenv)

/-- Slot `i` of the table holds a RUNNABLE environment. -/
def RunnableAt (envs : List Env) (i : Nat) : Prop :=
  ∃ e, envs[i]? = some e ∧ e.env_status = EnvStatus.ENV_RUNNABLE

/-- An instance of the parameter `ENVX` for a table of `n` slots: the slot
number is the environment id modulo `n` (for `n` a power of two this is the
mask `envid & (n - 1)`). -/
def envxOf (n : Nat) (envid : Nat) : Nat := envid % n

/-! ## The scan order of `sched_yield` -/

/-- The slot indices `i = (startingEnv + inc) % NENV` (sched.c line 42) that
the loop of `sched_yield` computes, one per iteration, in the order of the
iterations; `todo` is the number of iterations left. -/
def scanSlots (n startingEnv : Nat) : Nat → Nat → List Nat
  | 0, _ => []
  | todo + 1, inc => (startingEnv + inc) % n :: scanSlots n startingEnv todo (inc + 1)

/-- The slots one call of `sched_yield` examines, in order. -/
def scanOrder (ENVX : Nat → Nat) (envs : List Env) (curenv : Option (Fin envs.length)) :
    List Nat :=
  scanSlots envs.length (startingEnv ENVX envs curenv) (envs.length - firstInc curenv)
    (firstInc curenv)

/-- What the loop body of `sched_yield` does with slot `i` (sched.c lines
50-58). -/
def examine (envs : List Env) (s : Scan) (i : Nat) : Scan :=
  match envs[i]? with
  | none => s
  | some e =>
    if e.env_status = EnvStatus.ENV_RUNNABLE then
      if e.priority < s.highestPri then
        { highestEnv := some i, nextEqualEnv := none, highestPri := e.priority }
      else if s.nextEqualEnv = none ∧ e.priority = s.highestPri then
        { s with nextEqualEnv := some i }
      else s
    else s

/-- The priority of slot `i` if the slot is RUNNABLE. -/
def runnablePri (envs : List Env) (i : Nat) : Option Int :=
  match envs[i]? with
  | none => none
  | some e => if e.env_status = EnvStatus.ENV_RUNNABLE then some e.priority else none

/-! ## The idle path: `sched_halt` -/

/-- The effects `sched_halt` performs, in program order. -/
inductive HaltStep where
  | cprintf_no_runnable
  | monitor_forever
  | curenv_null
  | lcr3_kern_pgdir
  | xchg_cpu_halted
  | unlock_kernel
  | hlt_forever
  deriving DecidableEq, Repr

/-- The test of the scan in `sched_halt` (sched.c lines 91-93). -/
def hasWork (e : Env) : Bool :=
  e.env_status = EnvStatus.ENV_RUNNABLE ∨ e.env_status = EnvStatus.ENV_RUNNING ∨
    e.env_status = EnvStatus.ENV_DYING

/-- The loop `for (i = 0; i < NENV; i++) if (...) break;` of `sched_halt`, run
on the slots from `i` on; the result is the value of `i` on exit. -/
def haltScan : List Env → Nat → Nat
  | [], i => i
  | e :: rest, i => if hasWork e then i else haltScan rest (i + 1)

/-- The function `sched_halt` of kern/sched.c, as the sequence of its effects. -/
def sched_halt (envs : List Env) : List HaltStep :=
  if haltScan envs 0 = envs.length then
    [HaltStep.cprintf_no_runnable, HaltStep.monitor_forever]
  else
    [HaltStep.curenv_null, HaltStep.lcr3_kern_pgdir, HaltStep.xchg_cpu_halted,
      HaltStep.unlock_kernel, HaltStep.hlt_forever]

/-! ## Repeated scheduling -/

/-- The table and the `curenv` pointer of one CPU between scheduling calls. -/
structure Cpu where
  envs : List Env
  curenv : Option Nat
  deriving DecidableEq, Repr

/-- The `curenv` pointer as an index into the table. -/
def curenvOf (envs : List Env) (c : Option Nat) : Option (Fin envs.length) :=
  match c with
  | some k => if h : k < envs.length then some ⟨k, h⟩ else none
  | none => none

/-- Write `st` to the status of slot `i`. -/
def setStatus (envs : List Env) (i : Nat) (st : EnvStatus) : List Env :=
  match envs[i]? with
  | some e => envs.set i { e with env_status := st }
  | none => envs

/-- Modelled from the spec: the effect of `env_run` (kern/env.c, not part of
the sources at hand) on the table, as the round-robin property describes it:
the previous incumbent, if RUNNING, returns to RUNNABLE, and the selected slot
becomes the RUNNING incumbent. -/
def env_run (k : Cpu) (i : Nat) : Cpu :=
  let demoted :=
    match k.curenv with
    | some c =>
      match k.envs[c]? with
      | some e =>
        if e.env_status = EnvStatus.ENV_RUNNING then setStatus k.envs c EnvStatus.ENV_RUNNABLE
        else k.envs
      | none => k.envs
    | none => k.envs
  { envs := setStatus demoted i EnvStatus.ENV_RUNNING, curenv := some i }

/-- One scheduling call followed by its effect on the CPU: `env_run` on the
selected slot, or the halting path of `sched_halt`, which clears `curenv`
(sched.c line 103) and leaves the table as it is. -/
def schedRound (ENVX : Nat → Nat) (k : Cpu) : Outcome × Cpu :=
  match sched_yield ENVX k.envs (curenvOf k.envs k.curenv) with
  | Outcome.run i => (Outcome.run i, env_run k i)
  | Outcome.halt => (Outcome.halt, { k with curenv := none })

/-- The outcomes of `n` successive scheduling calls. -/
def schedRounds (ENVX : Nat → Nat) : Nat → Cpu → List Outcome
  | 0, _ => []
  | n + 1, k => (schedRound ENVX k).1 :: schedRounds ENVX n (schedRound ENVX k).2

/-! ## Data model of the monitor -/

/-- Conversion of a `strtol` result to `uint32_t`. -/
def u32 (x : Int) : Nat := (x % 4294967296).toNat

/-- Modelled from the spec: the page size `PGSIZE` of inc/mmu.h (not part of
the sources at hand), the page-aligned step of the inspector. -/
def PGSIZE : Nat := 4096

/-- Modelled from the spec: the present bit `PTE_P` of inc/mmu.h (not part of
the sources at hand), the lowest of the low-order flag bits. -/
def PTE_P : Nat := 1

/-- Modelled from the spec: the macro `PTE_ADDR` of inc/mmu.h (not part of the
sources at hand): the entry without its low-order 12 flag bits. -/
def PTE_ADDR (pte : Nat) : Nat := pte &&& 0xfffff000

/-- The kernel page table as the monitor sees it: `walk va` is the result of
`pgdir_walk(kern_pgdir, va, 0)`, the address of the entry for `va` or NULL;
`read p` is the 32-bit entry stored at address `p`. -/
structure PageTable where
  walk : Nat → Option Nat
  read : Nat → Nat

/-- The fields of `struct Eipdebuginfo` that `mon_backtrace` prints; the two
string pointers are kept as addresses. -/
structure Eipdebuginfo where
  eip_file : Nat
  eip_line : Int
  eip_fn_name : Nat
  eip_fn_namelen : Int
  eip_fn_addr : Nat
  deriving DecidableEq, Repr

/-- The observable effects of the monitor commands, in program order: one
constructor per `cprintf` call site, per external call and per store. -/
inductive MonEvent where
  | backtrace_header
  | frame_line (ebp eip : Nat) (args : List Nat)
  | debug_line (file : Nat) (line : Int) (namelen : Int) (name : Nat) (off : Nat)
  | usage_showmappings
  | usage_setflags
  | usage_memdump
  | order_error
  | show_header (start stop : Nat)
  | show_va (curr : Nat)
  | pgdir_walk (va : Nat)
  | show_na
  | show_mapping (pa flags : Nat)
  | null_deref
  | no_mapping (va : Nat)
  | old_flags (flags : Nat)
  | pte_store (p value : Nat)
  | new_flags (flags : Nat)
  | tlb_invalidate (va : Nat)
  | dump_header (start stop : Nat)
  | dump_line (curr value : Nat)
  deriving DecidableEq, Repr

/-- How a modelled command run ends: it returned a status to the shell, it
dereferenced a NULL pointer, or it was still looping when the fuel ran out. -/
inductive Status where
  | returned (code : Int)
  | faulted
  | running
  deriving DecidableEq, Repr

/-- The effects of a command run and how it ended. -/
structure MonResult where
  out : List MonEvent
  status : Status
  deriving DecidableEq, Repr

/-- Prepend effects to a run. -/
def MonResult.after (pre : List MonEvent) (r : MonResult) : MonResult :=
  { out := pre ++ r.out, status := r.status }

/-! ## `mon_backtrace` -/

/-- The address `(uint32_t *)ebp + k`. -/
def wordAt (ebp k : Nat) : Nat := (ebp + 4 * k) % 4294967296

/-- The loop `while (ebp != 0)` of `mon_backtrace` (monitor.c lines 75-91).
`load a` is the 32-bit word stored at address `a`. -/
def backtraceLoop (load : Nat → Nat) (debuginfo_eip : Nat → Eipdebuginfo) :
    Nat → Nat → MonResult
  | 0, ebp =>
    if ebp ≠ 0 then { out := [], status := Status.running }
    else { out := [], status := Status.returned 0 }
  | fuel + 1, ebp =>
    if ebp ≠ 0 then
      let eip := load (wordAt ebp 1)
      let args := (List.range 5).map (fun i => load (wordAt ebp (2 + i)))
      let info := debuginfo_eip eip
      MonResult.after
        [MonEvent.frame_line ebp eip args,
          MonEvent.debug_line info.eip_file info.eip_line info.eip_fn_namelen info.eip_fn_name
            ((eip + 4294967296 - info.eip_fn_addr % 4294967296) % 4294967296)]
        (backtraceLoop load debuginfo_eip fuel (load ebp))
    else { out := [], status := Status.returned 0 }

/-- The function `mon_backtrace` of kern/monitor.c; `read_ebp` is the value
the call `read_ebp()` yields. -/
def mon_backtrace (load : Nat → Nat) (debuginfo_eip : Nat → Eipdebuginfo) (read_ebp : Nat)
    (fuel : Nat) : MonResult :=
  MonResult.after [MonEvent.backtrace_header] (backtraceLoop load debuginfo_eip fuel read_ebp)

/-- The `k`-th frame pointer of the saved-frame-pointer chain that starts at
`ebp`: each frame stores its caller's frame pointer at offset 0. -/
def framePointer (load : Nat → Nat) (ebp : Nat) : Nat → Nat
  | 0 => ebp
  | k + 1 => load (framePointer load ebp k)

/-- What a backtrace is to print for the frame at `fp`: the frame pointer, the
return address one word above it, the five words at word offsets 2 to 6, and
the debug information resolved for the return address. -/
def frameRecord (load : Nat → Nat) (debuginfo_eip : Nat → Eipdebuginfo) (fp : Nat) :
    List MonEvent :=
  [MonEvent.frame_line fp (load (wordAt fp 1))
      [load (wordAt fp 2), load (wordAt fp 3), load (wordAt fp 4), load (wordAt fp 5),
        load (wordAt fp 6)],
    MonEvent.debug_line (debuginfo_eip (load (wordAt fp 1))).eip_file
      (debuginfo_eip (load (wordAt fp 1))).eip_line
      (debuginfo_eip (load (wordAt fp 1))).eip_fn_namelen
      (debuginfo_eip (load (wordAt fp 1))).eip_fn_name
      ((load (wordAt fp 1) + 4294967296 -
        (debuginfo_eip (load (wordAt fp 1))).eip_fn_addr % 4294967296) % 4294967296)]

/-! ## `mon_showmappings` -/

/-- The loop `while (curr < end)` of `mon_showmappings` (monitor.c lines
117-126). -/
def showLoop (pt : PageTable) (stop : Nat) : Nat → Nat → MonResult
  | 0, curr =>
    if curr < stop then { out := [], status := Status.running }
    else { out := [], status := Status.returned 0 }
  | fuel + 1, curr =>
    if curr < stop then
      match pt.walk curr with
      | none =>
        { out := [MonEvent.show_va curr, MonEvent.pgdir_walk curr, MonEvent.show_na,
            MonEvent.null_deref],
          status := Status.faulted }
      | some p =>
        let pte := pt.read p
        MonResult.after
          ([MonEvent.show_va curr, MonEvent.pgdir_walk curr] ++
            (if pte &&& PTE_P = 0 then [MonEvent.show_na] else []) ++
            [MonEvent.show_mapping (PTE_ADDR pte) (pte &&& 0xfff)])
          (showLoop pt stop fuel ((curr + PGSIZE) % 4294967296))
    else { out := [], status := Status.returned 0 }

/-- The function `mon_showmappings` of kern/monitor.c; `a1`, `a2` are the
values `strtol` yields for `argv[1]`, `argv[2]`. -/
def mon_showmappings (pt : PageTable) (fuel : Nat) (argc : Int) (a1 a2 : Int) : MonResult :=
  if argc ≠ 3 then { out := [MonEvent.usage_showmappings], status := Status.returned 0 }
  else
    let start := u32 a1
    let stop := u32 a2
    if start ≥ stop then { out := [MonEvent.order_error], status := Status.returned 0 }
    else MonResult.after [MonEvent.show_header start stop] (showLoop pt stop fuel start)

/-! ## `mon_setflags` -/

/-- The function `mon_setflags` of kern/monitor.c: its effects, its return
status, and the contents of the page-table entries afterwards. -/
def mon_setflags (pt : PageTable) (argc : Int) (a1 a2 : Int) : MonResult × (Nat → Nat) :=
  if argc ≠ 3 then ({ out := [MonEvent.usage_setflags], status := Status.returned 0 }, pt.read)
  else
    let va := u32 a1
    let flags := u32 a2
    match pt.walk va with
    | none =>
      ({ out := [MonEvent.pgdir_walk va, MonEvent.no_mapping va], status := Status.returned 0 },
        pt.read)
    | some p =>
      let old := pt.read p
      let cleared := old &&& 0xfffff000
      let patched := cleared ||| flags
      ({ out := [MonEvent.pgdir_walk va, MonEvent.old_flags (old &&& 0xfff),
            MonEvent.pte_store p cleared, MonEvent.pte_store p patched,
            MonEvent.new_flags (patched &&& 0xfff)],
          status := Status.returned 0 },
        Function.update pt.read p patched)

/-! ## `mon_memdump` -/

/-- The loop `while (curr < end)` of `mon_memdump` (monitor.c lines 179-182). -/
def dumpLoop (load : Nat → Nat) (stop : Nat) : Nat → Nat → MonResult
  | 0, curr =>
    if curr < stop then { out := [], status := Status.running }
    else { out := [], status := Status.returned 0 }
  | fuel + 1, curr =>
    if curr < stop then
      MonResult.after [MonEvent.dump_line curr (load curr)]
        (dumpLoop load stop fuel ((curr + 1) % 4294967296))
    else { out := [], status := Status.returned 0 }

/-- The function `mon_memdump` of kern/monitor.c; `a1`, `a2` are the values
`strtol` yields for `argv[1]`, `argv[2]`. -/
def mon_memdump (load : Nat → Nat) (fuel : Nat) (argc : Int) (a1 a2 : Int) : MonResult :=
  if argc ≠ 3 then { out := [MonEvent.usage_memdump], status := Status.returned 0 }
  else
    let start := u32 a1
    let stop := u32 a2
    if start ≥ stop ∨ start < 0 ∨ stop > 0xffffffff then
      { out := [MonEvent.order_error], status := Status.returned 0 }
    else MonResult.after [MonEvent.dump_header start stop] (dumpLoop load stop fuel start)

/-! ## Scheduler: invariants of the scan -/

/-- Both candidate pointers of a scan state refer to RUNNABLE slots. -/
def CandidatesRunnable (envs : List Env) (s : Scan) : Prop :=
  (∀ i, s.highestEnv = some i → RunnableAt envs i) ∧
  (∀ i, s.nextEqualEnv = some i → RunnableAt envs i)

/-- The invariant of the loop of `sched_yield` when iteration `inc` is about
to start; `inc0` is the first iteration, `p0` the initial `highestPri`, and
slot `(st + k) % NENV` is the one iteration `k` examines.
* `highestPri` never exceeds `p0` and is a lower bound of the priorities of the
  RUNNABLE slots examined so far;
* while `highestEnv` is unset, `highestPri` is still `p0`, and `nextEqualEnv`
  is the first examined RUNNABLE slot of priority `p0`, if there is one;
* once `highestEnv` is set, it is the first examined RUNNABLE slot whose
  priority is `highestPri`, that priority is below `p0`, and `nextEqualEnv`,
  if set, was examined later. -/
structure ScanInv (envs : List Env) (st inc0 : Nat) (p0 : Int) (inc : Nat) (s : Scan) :
    Prop where
  le_first : s.highestPri ≤ p0
  lower : ∀ k q, inc0 ≤ k → k < inc →
    runnablePri envs ((st + k) % envs.length) = some q → s.highestPri ≤ q
  none_first : s.highestEnv = none → s.highestPri = p0
  best : ∀ i, s.highestEnv = some i →
    ∃ k, inc0 ≤ k ∧ k < inc ∧ i = (st + k) % envs.length ∧
      runnablePri envs ((st + k) % envs.length) = some s.highestPri ∧ s.highestPri < p0 ∧
      (∀ k' q, inc0 ≤ k' → k' < k →
        runnablePri envs ((st + k') % envs.length) = some q → s.highestPri < q) ∧
      (∀ t, s.nextEqualEnv = some t → ∃ k2, k < k2 ∧ k2 < inc ∧ t = (st + k2) % envs.length)
  tie : s.highestEnv = none →
    (s.nextEqualEnv = none ∧
      ∀ k, inc0 ≤ k → k < inc → runnablePri envs ((st + k) % envs.length) ≠ some p0) ∨
    (∃ k, inc0 ≤ k ∧ k < inc ∧ s.nextEqualEnv = some ((st + k) % envs.length) ∧
      runnablePri envs ((st + k) % envs.length) = some p0 ∧
      ∀ k', inc0 ≤ k' → k' < k → runnablePri envs ((st + k') % envs.length) ≠ some p0)

theorem scanBody_none (envs : List Env) (st : Nat) (s : Scan) (inc : Nat)
    (h : envs[(st + inc) % envs.length]? = none) : scanBody envs st s inc = s := by
  simp only [scanBody, h]

theorem scanBody_some (envs : List Env) (st : Nat) (s : Scan) (inc : Nat) (e : Env)
    (h : envs[(st + inc) % envs.length]? = some e) :
    scanBody envs st s inc =
      if e.env_status = EnvStatus.ENV_RUNNABLE then
        if e.priority < s.highestPri then
          { highestEnv := some ((st + inc) % envs.length), nextEqualEnv := none,
            highestPri := e.priority }
        else if s.nextEqualEnv = none ∧ e.priority = s.highestPri then
          { s with nextEqualEnv := some ((st + inc) % envs.length) }
        else s
      else s := by
  simp only [scanBody, h]

theorem scanBody_candidates (envs : List Env) (st : Nat) (s : Scan) (inc : Nat)
    (h : CandidatesRunnable envs s) : CandidatesRunnable envs (scanBody envs st s inc) := by
  cases hget : envs[(st + inc) % envs.length]? with
  | none => rw [scanBody_none envs st s inc hget]; exact h
  | some e =>
    rw [scanBody_some envs st s inc e hget]
    by_cases hr : e.env_status = EnvStatus.ENV_RUNNABLE
    · rw [if_pos hr]
      by_cases hlt : e.priority < s.highestPri
      · rw [if_pos hlt]
        refine ⟨?_, ?_⟩
        · intro i hi
          simp only [Option.some.injEq] at hi
          subst hi
          exact ⟨e, hget, hr⟩
        · intro i hi
          simp at hi
      · rw [if_neg hlt]
        by_cases htie : s.nextEqualEnv = none ∧ e.priority = s.highestPri
        · rw [if_pos htie]
          refine ⟨h.1, ?_⟩
          intro i hi
          simp only [Option.some.injEq] at hi
          subst hi
          exact ⟨e, hget, hr⟩
        · rw [if_neg htie]
          exact h
    · rw [if_neg hr]
      exact h

theorem scanLoop_candidates (envs : List Env) (st : Nat) :
    ∀ (todo inc : Nat) (s : Scan), CandidatesRunnable envs s →
      CandidatesRunnable envs (scanLoop envs st todo inc s) := by
  intro todo
  induction todo with
  | zero => intro inc s h; simpa [scanLoop] using h
  | succ k ih =>
    intro inc s h
    simp only [scanLoop]
    exact ih (inc + 1) _ (scanBody_candidates envs st s inc h)

theorem scanResult_candidates (ENVX : Nat → Nat) (envs : List Env)
    (curenv : Option (Fin envs.length)) :
    CandidatesRunnable envs (scanResult ENVX envs curenv) := by
  unfold scanResult
  apply scanLoop_candidates
  constructor <;> intro i hi <;> simp at hi

/-! ## Scheduler: selection -/

/-- C1 fails on the code. Slot 1 is RUNNABLE, yet with the incumbent in slot 0
DYING at priority 1 (numerically lower than slot 1's priority 2) `sched_yield`
selects no slot and falls through to `sched_halt`; likewise with no incumbent
and a single RUNNABLE slot whose priority 101 exceeds the initial `highestPri`
of 100. -/
theorem sched_yield_halts_despite_runnable :
    RunnableAt [⟨4096, EnvStatus.ENV_DYING, 1⟩, ⟨4097, EnvStatus.ENV_RUNNABLE, 2⟩] 1 ∧
    sched_yield (envxOf 2) [⟨4096, EnvStatus.ENV_DYING, 1⟩, ⟨4097, EnvStatus.ENV_RUNNABLE, 2⟩]
      (some ⟨0, by decide⟩) = Outcome.halt ∧
    RunnableAt [⟨4096, EnvStatus.ENV_RUNNABLE, 101⟩] 0 ∧
    sched_yield (envxOf 1) [⟨4096, EnvStatus.ENV_RUNNABLE, 101⟩] none = Outcome.halt := by
  refine ⟨⟨⟨4097, EnvStatus.ENV_RUNNABLE, 2⟩, rfl, rfl⟩, by decide,
    ⟨⟨4096, EnvStatus.ENV_RUNNABLE, 101⟩, rfl, rfl⟩, by decide⟩

/-- C2: whenever `sched_yield` hands slot `i` to `env_run`, slot `i` is
RUNNABLE, or it is the caller's own incumbent and its status is RUNNING;
hence a slot that is RUNNING and selected is the caller's incumbent. -/
theorem sched_yield_runs_runnable_or_incumbent (ENVX : Nat → Nat) (envs : List Env)
    (curenv : Option (Fin envs.length)) (i : Nat)
    (h : sched_yield ENVX envs curenv = Outcome.run i) :
    (RunnableAt envs i ∨
      ∃ c, curenv = some c ∧ c.val = i ∧ (envs.get c).env_status = EnvStatus.ENV_RUNNING) ∧
    (∀ e, envs[i]? = some e → e.env_status = EnvStatus.ENV_RUNNING →
      ∃ c, curenv = some c ∧ c.val = i) := by
  have hcand := scanResult_candidates ENVX envs curenv
  have key : RunnableAt envs i ∨
      ∃ c, curenv = some c ∧ c.val = i ∧ (envs.get c).env_status = EnvStatus.ENV_RUNNING := by
    unfold sched_yield resolve at h
    cases hhi : (scanResult ENVX envs curenv).highestEnv with
    | some j =>
      rw [hhi] at h
      simp only [Outcome.run.injEq] at h
      subst h
      exact Or.inl (hcand.1 j hhi)
    | none =>
      rw [hhi] at h
      cases hne : (scanResult ENVX envs curenv).nextEqualEnv with
      | some j =>
        rw [hne] at h
        simp only [Outcome.run.injEq] at h
        subst h
        exact Or.inl (hcand.2 j hne)
      | none =>
        rw [hne] at h
        cases curenv with
        | none => simp at h
        | some c =>
          simp only at h
          by_cases hrun : (envs.get c).env_status = EnvStatus.ENV_RUNNING
          · rw [if_pos hrun] at h
            simp only [Outcome.run.injEq] at h
            exact Or.inr ⟨c, rfl, h, hrun⟩
          · rw [if_neg hrun] at h
            simp at h
  refine ⟨key, ?_⟩
  intro e he hst
  rcases key with ⟨e', he', hst'⟩ | ⟨c, hc, hci, _⟩
  · rw [he] at he'
    simp only [Option.some.injEq] at he'
    subst he'
    rw [hst] at hst'
    exact absurd hst' (by decide)
  · exact ⟨c, hc, hci⟩

/-- Witness for C2: with no incumbent, the RUNNABLE slot 0 is run and the slot
that is RUNNING elsewhere is passed over. -/
theorem sched_yield_runs_runnable_or_incumbent_witness :
    sched_yield (envxOf 2)
        [⟨4096, EnvStatus.ENV_RUNNABLE, 5⟩, ⟨4097, EnvStatus.ENV_RUNNING, 5⟩] none
      = Outcome.run 0 ∧
    RunnableAt [⟨4096, EnvStatus.ENV_RUNNABLE, 5⟩, ⟨4097, EnvStatus.ENV_RUNNING, 5⟩] 0 :=
  ⟨by decide,
    ((sched_yield_runs_runnable_or_incumbent (envxOf 2)
        [⟨4096, EnvStatus.ENV_RUNNABLE, 5⟩, ⟨4097, EnvStatus.ENV_RUNNING, 5⟩] none 0
        (by decide)).1).resolve_right (by simp)⟩

/-- C3 fails on the code. Slots 0 and 1 are RUNNABLE and share priority 101,
the lowest in the table; starting with no incumbent, every one of any number
of successive scheduling calls ends in `sched_halt`, so neither slot is ever
selected (and, no slot being selected, no slot changes status between the
calls). -/
theorem schedRounds_never_selects_priority_101 :
    RunnableAt [⟨4096, EnvStatus.ENV_RUNNABLE, 101⟩, ⟨4097, EnvStatus.ENV_RUNNABLE, 101⟩] 0 ∧
    RunnableAt [⟨4096, EnvStatus.ENV_RUNNABLE, 101⟩, ⟨4097, EnvStatus.ENV_RUNNABLE, 101⟩] 1 ∧
    ∀ n, schedRounds (envxOf 2) n
        ⟨[⟨4096, EnvStatus.ENV_RUNNABLE, 101⟩, ⟨4097, EnvStatus.ENV_RUNNABLE, 101⟩], none⟩
      = List.replicate n Outcome.halt := by
  refine ⟨⟨⟨4096, EnvStatus.ENV_RUNNABLE, 101⟩, rfl, rfl⟩,
    ⟨⟨4097, EnvStatus.ENV_RUNNABLE, 101⟩, rfl, rfl⟩, ?_⟩
  intro n
  induction n with
  | zero => rfl
  | succ k ih =>
    have hstep : schedRound (envxOf 2)
        ⟨[⟨4096, EnvStatus.ENV_RUNNABLE, 101⟩, ⟨4097, EnvStatus.ENV_RUNNABLE, 101⟩], none⟩
        = (Outcome.halt,
            ⟨[⟨4096, EnvStatus.ENV_RUNNABLE, 101⟩, ⟨4097, EnvStatus.ENV_RUNNABLE, 101⟩], none⟩) := by
      decide
    simp only [schedRounds, hstep, ih, List.replicate_succ]

/-! ## The idle path -/

theorem haltScan_lt (envs : List Env) :
    ∀ i, (∃ e ∈ envs, hasWork e = true) → haltScan envs i < i + envs.length := by
  induction envs with
  | nil => intro i h; simp at h
  | cons e rest ih =>
    intro i h
    simp only [haltScan, List.length_cons]
    by_cases hw : hasWork e = true
    · rw [if_pos hw]; omega
    · rw [if_neg hw]
      have hrest : ∃ x ∈ rest, hasWork x = true := by
        rcases h with ⟨x, hx, hxw⟩
        rcases List.mem_cons.mp hx with rfl | hmem
        · exact absurd hxw hw
        · exact ⟨x, hmem, hxw⟩
      have := ih (i + 1) hrest
      omega

theorem sched_halt_of_work (envs : List Env) (h : ∃ e ∈ envs, hasWork e = true) :
    sched_halt envs =
      [HaltStep.curenv_null, HaltStep.lcr3_kern_pgdir, HaltStep.xchg_cpu_halted,
        HaltStep.unlock_kernel, HaltStep.hlt_forever] := by
  have hlt := haltScan_lt envs 0 h
  unfold sched_halt
  rw [if_neg (by omega)]

/-- C4: when some slot is RUNNABLE, RUNNING or DYING, the effects of
`sched_halt` contain the write of HALTED to the CPU status, later the release
of the kernel lock, and no other release of the lock: the lock is released
exactly once, after the status write. -/
theorem sched_halt_halted_before_unlock (envs : List Env)
    (h : ∃ e ∈ envs, e.env_status = EnvStatus.ENV_RUNNABLE ∨
      e.env_status = EnvStatus.ENV_RUNNING ∨ e.env_status = EnvStatus.ENV_DYING) :
    (∃ pre mid post,
      sched_halt envs =
        pre ++ [HaltStep.xchg_cpu_halted] ++ mid ++ [HaltStep.unlock_kernel] ++ post ∧
      HaltStep.unlock_kernel ∉ pre ∧ HaltStep.unlock_kernel ∉ mid ∧
      HaltStep.unlock_kernel ∉ post) ∧
    (sched_halt envs).count HaltStep.unlock_kernel = 1 := by
  have hw : ∃ e ∈ envs, hasWork e = true := by
    rcases h with ⟨e, he, hst⟩
    exact ⟨e, he, by simpa [hasWork] using hst⟩
  rw [sched_halt_of_work envs hw]
  refine ⟨⟨[HaltStep.curenv_null, HaltStep.lcr3_kern_pgdir], [], [HaltStep.hlt_forever],
    rfl, by decide, by decide, by decide⟩, by decide⟩

/-- Witness for C4: a table whose only busy slot is DYING. -/
theorem sched_halt_halted_before_unlock_witness :
    (∃ e ∈ [(⟨4096, EnvStatus.ENV_FREE, 0⟩ : Env), ⟨4097, EnvStatus.ENV_DYING, 3⟩],
      e.env_status = EnvStatus.ENV_RUNNABLE ∨
        e.env_status = EnvStatus.ENV_RUNNING ∨ e.env_status = EnvStatus.ENV_DYING) ∧
    (sched_halt [⟨4096, EnvStatus.ENV_FREE, 0⟩, ⟨4097, EnvStatus.ENV_DYING, 3⟩]).count
      HaltStep.unlock_kernel = 1 :=
  ⟨⟨⟨4097, EnvStatus.ENV_DYING, 3⟩, by simp, Or.inr (Or.inr rfl)⟩,
    (sched_halt_halted_before_unlock
      [⟨4096, EnvStatus.ENV_FREE, 0⟩, ⟨4097, EnvStatus.ENV_DYING, 3⟩]
      ⟨⟨4097, EnvStatus.ENV_DYING, 3⟩, by simp, Or.inr (Or.inr rfl)⟩).2⟩

/-! ## Page-table inspector -/

/-- C5 fails on the code. When the lookup for 0x1000 yields NULL, the inspector
prints the no-mapping text and then dereferences the NULL result; when it
yields an entry without the present bit, the no-mapping text is followed by a
physical-address and permission line for the same page. -/
theorem mon_showmappings_unmapped_falls_through :
    mon_showmappings ⟨fun _ => none, fun _ => 0⟩ 2 3 0x1000 0x3000 =
      ⟨[MonEvent.show_header 0x1000 0x3000, MonEvent.show_va 0x1000, MonEvent.pgdir_walk 0x1000,
          MonEvent.show_na, MonEvent.null_deref],
        Status.faulted⟩ ∧
    mon_showmappings ⟨fun va => some (va / 4096), fun p => if p = 1 then 0 else 0x5003⟩
        2 3 0x1000 0x3000 =
      ⟨[MonEvent.show_header 0x1000 0x3000, MonEvent.show_va 0x1000, MonEvent.pgdir_walk 0x1000,
          MonEvent.show_na, MonEvent.show_mapping 0 0, MonEvent.show_va 0x2000,
          MonEvent.pgdir_walk 0x2000, MonEvent.show_mapping 0x5000 3],
        Status.returned 0⟩ := by
  constructor <;> decide

/-- C10: for `start >= end` the inspector prints the order error and nothing
else, returns 0, and performs no lookup and prints no mapping line. -/
theorem mon_showmappings_rejects_reversed (pt : PageTable) (fuel : Nat) (a1 a2 : Int)
    (h : u32 a1 ≥ u32 a2) :
    mon_showmappings pt fuel 3 a1 a2 = ⟨[MonEvent.order_error], Status.returned 0⟩ ∧
    (∀ va, MonEvent.pgdir_walk va ∉ (mon_showmappings pt fuel 3 a1 a2).out) ∧
    (∀ pa flags, MonEvent.show_mapping pa flags ∉ (mon_showmappings pt fuel 3 a1 a2).out) := by
  have heq : mon_showmappings pt fuel 3 a1 a2 = ⟨[MonEvent.order_error], Status.returned 0⟩ := by
    simp only [mon_showmappings]
    rw [if_neg (by decide), if_pos h]
  rw [heq]
  exact ⟨rfl, by intro va; simp, by intro pa flags; simp⟩

/-- Witness for C10: `showmappings 0x2000 0x1000`. -/
theorem mon_showmappings_rejects_reversed_witness :
    u32 0x2000 ≥ u32 0x1000 ∧
    mon_showmappings ⟨fun va => some va, fun _ => 7⟩ 5 3 0x2000 0x1000 =
      ⟨[MonEvent.order_error], Status.returned 0⟩ :=
  ⟨by decide,
    (mon_showmappings_rejects_reversed ⟨fun va => some va, fun _ => 7⟩ 5 0x2000 0x1000
      (by decide)).1⟩

/-! ## Page-table mutator -/

/-- C6 fails on the code. The entry for 0x2000 holds 0x4003; setting the raw
flag value 0x1003 leaves 0x5003 in it, so the physical-address part changes
from 0x4000 to 0x5000 while the reported new flags are 3. -/
theorem mon_setflags_changes_address_bits :
    PTE_ADDR ((⟨fun va => some (va / 4096), fun _ => 0x4003⟩ : PageTable).read 2) = 0x4000 ∧
    PTE_ADDR ((mon_setflags ⟨fun va => some (va / 4096), fun _ => 0x4003⟩ 3 0x2000 0x1003).2 2)
      = 0x5000 ∧
    (mon_setflags ⟨fun va => some (va / 4096), fun _ => 0x4003⟩ 3 0x2000 0x1003).1 =
      ⟨[MonEvent.pgdir_walk 0x2000, MonEvent.old_flags 3, MonEvent.pte_store 2 0x4000,
          MonEvent.pte_store 2 0x5003, MonEvent.new_flags 3],
        Status.returned 0⟩ := by
  refine ⟨by decide, by decide, by decide⟩

/-- C7: when the lookup yields no entry, `mon_setflags` reports the missing
mapping, prints neither the old nor the new flags, stores nothing, and leaves
every page-table entry as it was. -/
theorem mon_setflags_unmapped (pt : PageTable) (a1 a2 : Int) (h : pt.walk (u32 a1) = none) :
    (mon_setflags pt 3 a1 a2).1 =
      ⟨[MonEvent.pgdir_walk (u32 a1), MonEvent.no_mapping (u32 a1)], Status.returned 0⟩ ∧
    (mon_setflags pt 3 a1 a2).2 = pt.read ∧
    (∀ f, MonEvent.old_flags f ∉ (mon_setflags pt 3 a1 a2).1.out) ∧
    (∀ f, MonEvent.new_flags f ∉ (mon_setflags pt 3 a1 a2).1.out) ∧
    (∀ p v, MonEvent.pte_store p v ∉ (mon_setflags pt 3 a1 a2).1.out) := by
  have heq : mon_setflags pt 3 a1 a2 =
      (⟨[MonEvent.pgdir_walk (u32 a1), MonEvent.no_mapping (u32 a1)], Status.returned 0⟩,
        pt.read) := by
    simp only [mon_setflags]
    rw [if_neg (by decide)]
    simp only [h]
  rw [heq]
  exact ⟨rfl, rfl, by intro f; simp, by intro f; simp, by intro p v; simp⟩

/-- Witness for C7: a page table with no entry at all. -/
theorem mon_setflags_unmapped_witness :
    (⟨fun _ => none, fun _ => 0x4003⟩ : PageTable).walk (u32 0x2000) = none ∧
    (mon_setflags ⟨fun _ => none, fun _ => 0x4003⟩ 3 0x2000 0x7).1 =
      ⟨[MonEvent.pgdir_walk (u32 0x2000), MonEvent.no_mapping (u32 0x2000)], Status.returned 0⟩ :=
  ⟨rfl, (mon_setflags_unmapped ⟨fun _ => none, fun _ => 0x4003⟩ 0x2000 0x7 rfl).1⟩

/-! ## Memory dump -/

/-- C8 fails on the code. For `start = 0x1000`, `end = 0x1008` the dump
advances the address by one byte per step and prints eight values, at 0x1000,
0x1001, ..., 0x1007, not two. -/
theorem mon_memdump_steps_by_one_byte (load : Nat → Nat) :
    mon_memdump load 8 3 0x1000 0x1008 =
      ⟨[MonEvent.dump_header 0x1000 0x1008,
          MonEvent.dump_line 0x1000 (load 0x1000), MonEvent.dump_line 0x1001 (load 0x1001),
          MonEvent.dump_line 0x1002 (load 0x1002), MonEvent.dump_line 0x1003 (load 0x1003),
          MonEvent.dump_line 0x1004 (load 0x1004), MonEvent.dump_line 0x1005 (load 0x1005),
          MonEvent.dump_line 0x1006 (load 0x1006), MonEvent.dump_line 0x1007 (load 0x1007)],
        Status.returned 0⟩ := by
  rfl

/-! ## Stack unwinder -/

theorem framePointer_shift (load : Nat → Nat) (ebp : Nat) :
    ∀ k, framePointer load (load ebp) k = framePointer load ebp (k + 1) := by
  intro k
  induction k with
  | zero => rfl
  | succ j ih => simp only [framePointer, ih]

theorem backtraceLoop_zero_ebp (load : Nat → Nat) (dbg : Nat → Eipdebuginfo) (fuel : Nat) :
    backtraceLoop load dbg fuel 0 = ⟨[], Status.returned 0⟩ := by
  cases fuel <;> simp [backtraceLoop]

theorem backtraceLoop_step (load : Nat → Nat) (dbg : Nat → Eipdebuginfo) (fuel ebp : Nat)
    (h : ebp ≠ 0) :
    backtraceLoop load dbg (fuel + 1) ebp =
      MonResult.after (frameRecord load dbg ebp) (backtraceLoop load dbg fuel (load ebp)) := by
  simp only [backtraceLoop, if_pos h, frameRecord, List.range, List.range.loop, List.map]

theorem backtraceLoop_chain (load : Nat → Nat) (dbg : Nat → Eipdebuginfo) :
    ∀ (n fuel ebp : Nat), (∀ k, k < n → framePointer load ebp k ≠ 0) →
      framePointer load ebp n = 0 → n ≤ fuel →
      backtraceLoop load dbg fuel ebp =
        ⟨(List.range n).flatMap (fun k => frameRecord load dbg (framePointer load ebp k)),
          Status.returned 0⟩ := by
  intro n
  induction n with
  | zero =>
    intro fuel ebp _ hz _
    simp only [framePointer] at hz
    subst hz
    simpa using backtraceLoop_zero_ebp load dbg fuel
  | succ m ih =>
    intro fuel ebp hnz hz hfuel
    obtain ⟨f, rfl⟩ : ∃ f, fuel = f + 1 := ⟨fuel - 1, by omega⟩
    have h0 : ebp ≠ 0 := hnz 0 (Nat.succ_pos m)
    rw [backtraceLoop_step load dbg f ebp h0]
    have ih' := ih f (load ebp)
      (fun k hk => by rw [framePointer_shift]; exact hnz (k + 1) (by omega))
      (by rw [framePointer_shift]; exact hz) (by omega)
    rw [ih', List.range_succ_eq_map, List.flatMap_cons, List.flatMap_map]
    simp only [MonResult.after, framePointer_shift, framePointer, Nat.succ_eq_add_one]

/-- C9: if the saved-frame-pointer chain from the starting frame pointer is
non-zero for its first `n` members and zero at the `n`-th, then with `n` or
more units of fuel `mon_backtrace` returns 0 and prints, after the header,
exactly the records of frames 0, 1, ..., n-1 in that order (callee first), the
`k`-th with the `k`-th frame pointer, the return address one word above it and
the five argument words at word offsets 2 to 6. -/
theorem mon_backtrace_chain (load : Nat → Nat) (debuginfo_eip : Nat → Eipdebuginfo)
    (read_ebp n fuel : Nat)
    (hnz : ∀ k, k < n → framePointer load read_ebp k ≠ 0)
    (hz : framePointer load read_ebp n = 0) (hfuel : n ≤ fuel) :
    mon_backtrace load debuginfo_eip read_ebp fuel =
      ⟨MonEvent.backtrace_header ::
          (List.range n).flatMap
            (fun k => frameRecord load debuginfo_eip (framePointer load read_ebp k)),
        Status.returned 0⟩ := by
  unfold mon_backtrace
  rw [backtraceLoop_chain load debuginfo_eip n fuel read_ebp hnz hz hfuel]
  rfl

/-- Witness for C9: a synthetic chain of two frames, at 0x100 and 0x200, the
second of which stores a zero caller frame pointer. -/
theorem mon_backtrace_chain_witness :
    mon_backtrace (fun a => if a = 0x100 then 0x200 else if a = 0x200 then 0 else a + 7)
        (fun eip => ⟨0, 0, 0, 0, eip⟩) 0x100 2 =
      ⟨[MonEvent.backtrace_header,
          MonEvent.frame_line 0x100 0x10b [0x10f, 0x113, 0x117, 0x11b, 0x11f],
          MonEvent.debug_line 0 0 0 0 0,
          MonEvent.frame_line 0x200 0x20b [0x20f, 0x213, 0x217, 0x21b, 0x21f],
          MonEvent.debug_line 0 0 0 0 0],
        Status.returned 0⟩ :=
  (mon_backtrace_chain (fun a => if a = 0x100 then 0x200 else if a = 0x200 then 0 else a + 7)
    (fun eip => ⟨0, 0, 0, 0, eip⟩) 0x100 2 2 (by decide) (by decide) (by decide)).trans
    (by decide)

/-! ## Page-table mutator: effects on a mapped address -/

theorem highmask_low_bits (i : Nat) (h : i < 12) : Nat.testBit 0xfffff000 i = false := by
  interval_cases i <;> rfl

theorem patched_low_bits (e f : Nat) : ((e &&& 0xfffff000) ||| f) &&& 0xfff = f &&& 0xfff := by
  apply Nat.eq_of_testBit_eq
  intro i
  have h12 : (0xfff : Nat) = 2 ^ 12 - 1 := by norm_num
  rw [h12]
  simp only [Nat.testBit_and, Nat.testBit_or, Nat.testBit_two_pow_sub_one]
  by_cases hi : i < 12
  · simp [hi, highmask_low_bits i hi]
  · simp [hi]

theorem mon_setflags_mapped (pt : PageTable) (a1 a2 : Int) (p : Nat)
    (h : pt.walk (u32 a1) = some p) :
    mon_setflags pt 3 a1 a2 =
      (⟨[MonEvent.pgdir_walk (u32 a1), MonEvent.old_flags (pt.read p &&& 0xfff),
            MonEvent.pte_store p (pt.read p &&& 0xfffff000),
            MonEvent.pte_store p ((pt.read p &&& 0xfffff000) ||| u32 a2),
            MonEvent.new_flags (((pt.read p &&& 0xfffff000) ||| u32 a2) &&& 0xfff)],
          Status.returned 0⟩,
        Function.update pt.read p ((pt.read p &&& 0xfffff000) ||| u32 a2)) := by
  simp only [mon_setflags]
  rw [if_neg (by decide)]
  simp only [h]

/-- C11 fails on the code: for the mapped address 0x2000 the effects of
`mon_setflags` are the lookup, the old-flags report, two stores and the
new-flags report; the invalidation of the translation of 0x2000 is not among
them. -/
theorem mon_setflags_skips_invalidate :
    (⟨fun va => some (va / 4096), fun _ => 0x4003⟩ : PageTable).walk (u32 0x2000) = some 2 ∧
    (mon_setflags ⟨fun va => some (va / 4096), fun _ => 0x4003⟩ 3 0x2000 0x7).1.out =
      [MonEvent.pgdir_walk 0x2000, MonEvent.old_flags 3, MonEvent.pte_store 2 0x4000,
        MonEvent.pte_store 2 0x4007, MonEvent.new_flags 7] ∧
    MonEvent.tlb_invalidate (u32 0x2000) ∉
      (mon_setflags ⟨fun va => some (va / 4096), fun _ => 0x4003⟩ 3 0x2000 0x7).1.out := by
  refine ⟨by decide, by decide, by decide⟩

/-- C11 as amended: for every mapped virtual address and every flag bitmask the
effects of `mon_setflags` are, in order, the lookup, the report of the old
flags, the store that clears the low 12 bits, the store that ORs in the
replacement bits and the report of the new flags; no invalidation of a cached
translation is among them. -/
theorem mon_setflags_effects_without_invalidate (pt : PageTable) (a1 a2 : Int) (p : Nat)
    (h : pt.walk (u32 a1) = some p) :
    (mon_setflags pt 3 a1 a2).1.out =
      [MonEvent.pgdir_walk (u32 a1), MonEvent.old_flags (pt.read p &&& 0xfff),
        MonEvent.pte_store p (pt.read p &&& 0xfffff000),
        MonEvent.pte_store p ((pt.read p &&& 0xfffff000) ||| u32 a2),
        MonEvent.new_flags (((pt.read p &&& 0xfffff000) ||| u32 a2) &&& 0xfff)] ∧
    (∀ va, MonEvent.tlb_invalidate va ∉ (mon_setflags pt 3 a1 a2).1.out) := by
  rw [mon_setflags_mapped pt a1 a2 p h]
  exact ⟨rfl, by intro va; simp⟩

/-- Witness for the amended C11: the entry of 0x3000 holds 0x9005 and the flags
are 0x2. -/
theorem mon_setflags_effects_without_invalidate_witness :
    (⟨fun va => some (va / 4096), fun _ => 0x9005⟩ : PageTable).walk (u32 0x3000) = some 3 ∧
    MonEvent.tlb_invalidate 0x3000 ∉
      (mon_setflags ⟨fun va => some (va / 4096), fun _ => 0x9005⟩ 3 0x3000 0x2).1.out :=
  ⟨by decide,
    (mon_setflags_effects_without_invalidate ⟨fun va => some (va / 4096), fun _ => 0x9005⟩
      0x3000 0x2 3 (by decide)).2 0x3000⟩

/-- C16: for a mapped address whose entry holds `e` and a replacement bitmask
`f`, `mon_setflags` reports `e & 0xfff` as the old flags and nothing else as
such; afterwards the low 12 bits of the entry are `f & 0xfff`, and that is the
one value it reports as the new flags. -/
theorem mon_setflags_replaces_low_bits (pt : PageTable) (a1 a2 : Int) (p : Nat)
    (h : pt.walk (u32 a1) = some p) :
    (∀ x, MonEvent.old_flags x ∈ (mon_setflags pt 3 a1 a2).1.out ↔ x = pt.read p &&& 0xfff) ∧
    (mon_setflags pt 3 a1 a2).2 p &&& 0xfff = u32 a2 &&& 0xfff ∧
    (∀ x, MonEvent.new_flags x ∈ (mon_setflags pt 3 a1 a2).1.out ↔ x = u32 a2 &&& 0xfff) := by
  rw [mon_setflags_mapped pt a1 a2 p h]
  refine ⟨?_, ?_, ?_⟩
  · intro x
    simp
  · simp only [Function.update_same]
    exact patched_low_bits (pt.read p) (u32 a2)
  · intro x
    simp [patched_low_bits]

/-- Witness for C16: the entry of 0x2000 holds 0x4fff, every flag bit set, and
the replacement flags are 0x5. -/
theorem mon_setflags_replaces_low_bits_witness :
    (⟨fun va => some (va / 4096), fun _ => 0x4fff⟩ : PageTable).walk (u32 0x2000) = some 2 ∧
    (mon_setflags ⟨fun va => some (va / 4096), fun _ => 0x4fff⟩ 3 0x2000 0x5).2 2 &&& 0xfff
      = u32 0x5 &&& 0xfff :=
  ⟨by decide,
    (mon_setflags_replaces_low_bits ⟨fun va => some (va / 4096), fun _ => 0x4fff⟩
      0x2000 0x5 2 (by decide)).2.1⟩

/-! ## The idle path: monitor or halt -/

theorem haltScan_idle (envs : List Env) :
    ∀ i, (∀ e ∈ envs, hasWork e = false) → haltScan envs i = i + envs.length := by
  induction envs with
  | nil => intro i _; rfl
  | cons e rest ih =>
    intro i h
    have he : hasWork e = false := h e (List.mem_cons_self e rest)
    have hrest : ∀ x ∈ rest, hasWork x = false := fun x hx => h x (List.mem_cons_of_mem e hx)
    simp only [haltScan, he, List.length_cons]
    rw [if_neg (by simp), ih (i + 1) hrest]
    omega

theorem sched_halt_of_idle (envs : List Env) (h : ∀ e ∈ envs, hasWork e = false) :
    sched_halt envs = [HaltStep.cprintf_no_runnable, HaltStep.monitor_forever] := by
  unfold sched_halt
  rw [if_pos (by rw [haltScan_idle envs 0 h]; omega)]

/-- C12: `sched_halt` enters the monitor loop exactly when no slot is RUNNABLE,
RUNNING or DYING, and then it neither clears `curenv`, nor writes HALTED, nor
releases the lock; in every other case it clears `curenv`, switches to the
kernel page directory, writes HALTED, releases the lock and halts, and does
not enter the monitor. -/
theorem sched_halt_monitor_iff_idle (envs : List Env) :
    (HaltStep.monitor_forever ∈ sched_halt envs ↔
      ∀ e ∈ envs, ¬ (e.env_status = EnvStatus.ENV_RUNNABLE ∨
        e.env_status = EnvStatus.ENV_RUNNING ∨ e.env_status = EnvStatus.ENV_DYING)) ∧
    (((∀ e ∈ envs, ¬ (e.env_status = EnvStatus.ENV_RUNNABLE ∨
          e.env_status = EnvStatus.ENV_RUNNING ∨ e.env_status = EnvStatus.ENV_DYING)) ∧
        sched_halt envs = [HaltStep.cprintf_no_runnable, HaltStep.monitor_forever]) ∨
      ((∃ e ∈ envs, e.env_status = EnvStatus.ENV_RUNNABLE ∨
          e.env_status = EnvStatus.ENV_RUNNING ∨ e.env_status = EnvStatus.ENV_DYING) ∧
        sched_halt envs =
          [HaltStep.curenv_null, HaltStep.lcr3_kern_pgdir, HaltStep.xchg_cpu_halted,
            HaltStep.unlock_kernel, HaltStep.hlt_forever])) := by
  by_cases hw : ∃ e ∈ envs, hasWork e = true
  · have hlist := sched_halt_of_work envs hw
    have hbusy : ∃ e ∈ envs, e.env_status = EnvStatus.ENV_RUNNABLE ∨
        e.env_status = EnvStatus.ENV_RUNNING ∨ e.env_status = EnvStatus.ENV_DYING := by
      rcases hw with ⟨e, he, hst⟩
      exact ⟨e, he, by simpa [hasWork] using hst⟩
    refine ⟨?_, Or.inr ⟨hbusy, hlist⟩⟩
    rw [hlist]
    constructor
    · intro hmem
      exact absurd hmem (by decide)
    · intro hall
      rcases hbusy with ⟨e, he, hst⟩
      exact absurd hst (hall e he)
  · have hidle : ∀ e ∈ envs, hasWork e = false := by
      intro e he
      cases hval : hasWork e with
      | false => rfl
      | true => exact absurd ⟨e, he, hval⟩ hw
    have hlist := sched_halt_of_idle envs hidle
    have hnone : ∀ e ∈ envs, ¬ (e.env_status = EnvStatus.ENV_RUNNABLE ∨
        e.env_status = EnvStatus.ENV_RUNNING ∨ e.env_status = EnvStatus.ENV_DYING) := by
      intro e he hst
      have := hidle e he
      simp [hasWork] at this
      rcases hst with h1 | h2 | h3
      · exact this.1 h1
      · exact this.2.1 h2
      · exact this.2.2 h3
    refine ⟨?_, Or.inl ⟨hnone, hlist⟩⟩
    rw [hlist]
    constructor
    · intro _
      exact hnone
    · intro _
      decide

/-! ## Scheduler: no RUNNABLE slot -/

theorem scanResult_none_of_no_runnable (ENVX : Nat → Nat) (envs : List Env)
    (curenv : Option (Fin envs.length)) (h : ∀ i, ¬ RunnableAt envs i) :
    (scanResult ENVX envs curenv).highestEnv = none ∧
      (scanResult ENVX envs curenv).nextEqualEnv = none := by
  have hcand := scanResult_candidates ENVX envs curenv
  constructor
  · cases hhi : (scanResult ENVX envs curenv).highestEnv with
    | none => rfl
    | some i => exact absurd (hcand.1 i hhi) (h i)
  · cases hne : (scanResult ENVX envs curenv).nextEqualEnv with
    | none => rfl
    | some i => exact absurd (hcand.2 i hne) (h i)

/-- C13: when no slot of the table is RUNNABLE, `sched_yield` resumes the
incumbent if there is one and its status is RUNNING, and otherwise (no
incumbent, or an incumbent that is not RUNNING) runs no environment and falls
through to `sched_halt`. -/
theorem sched_yield_no_runnable (ENVX : Nat → Nat) (envs : List Env)
    (curenv : Option (Fin envs.length)) (h : ∀ i, ¬ RunnableAt envs i) :
    (∀ c, curenv = some c → (envs.get c).env_status = EnvStatus.ENV_RUNNING →
      sched_yield ENVX envs curenv = Outcome.run c.val) ∧
    (curenv = none → sched_yield ENVX envs curenv = Outcome.halt) ∧
    (∀ c, curenv = some c → (envs.get c).env_status ≠ EnvStatus.ENV_RUNNING →
      sched_yield ENVX envs curenv = Outcome.halt) := by
  obtain ⟨hhi, hne⟩ := scanResult_none_of_no_runnable ENVX envs curenv h
  refine ⟨?_, ?_, ?_⟩
  · intro c hc hrun
    subst hc
    simp only [sched_yield, resolve, hhi, hne, if_pos hrun]
  · intro hc
    subst hc
    simp only [sched_yield, resolve, hhi, hne]
  · intro c hc hrun
    subst hc
    simp only [sched_yield, resolve, hhi, hne, if_neg hrun]

/-- Witness for C13: a RUNNING incumbent in slot 1 of a table without RUNNABLE
slots is resumed. -/
theorem sched_yield_no_runnable_witness :
    (∀ i, ¬ RunnableAt [⟨4096, EnvStatus.ENV_FREE, 3⟩, ⟨4097, EnvStatus.ENV_RUNNING, 7⟩] i) ∧
    sched_yield (envxOf 2) [⟨4096, EnvStatus.ENV_FREE, 3⟩, ⟨4097, EnvStatus.ENV_RUNNING, 7⟩]
      (some ⟨1, by decide⟩) = Outcome.run 1 :=
  have hno : ∀ i, ¬ RunnableAt [⟨4096, EnvStatus.ENV_FREE, 3⟩, ⟨4097, EnvStatus.ENV_RUNNING, 7⟩] i := by
    intro i
    rintro ⟨e, he, hst⟩
    match i, he with
    | 0, he => simp at he; subst he; exact absurd hst (by decide)
    | 1, he => simp at he; subst he; exact absurd hst (by decide)
    | k + 2, he => simp at he
  ⟨hno,
    (sched_yield_no_runnable (envxOf 2)
      [⟨4096, EnvStatus.ENV_FREE, 3⟩, ⟨4097, EnvStatus.ENV_RUNNING, 7⟩] (some ⟨1, by decide⟩)
      hno).1 ⟨1, by decide⟩ rfl rfl⟩

/-! ## Memory dump: the range guard -/

theorem u32_lt (x : Int) : u32 x < 4294967296 := by
  unfold u32
  have h1 : 0 ≤ x % 4294967296 := Int.emod_nonneg x (by norm_num)
  have h2 : x % 4294967296 < 4294967296 := Int.emod_lt_of_pos x (by norm_num)
  omega

theorem dumpLoop_only_lines (load : Nat → Nat) (stop : Nat) :
    ∀ (fuel curr : Nat) (ev : MonEvent), ev ∈ (dumpLoop load stop fuel curr).out →
      ∃ a v, ev = MonEvent.dump_line a v := by
  intro fuel
  induction fuel with
  | zero =>
    intro curr ev hev
    simp only [dumpLoop] at hev
    split at hev <;> simp at hev
  | succ k ih =>
    intro curr ev hev
    simp only [dumpLoop] at hev
    split at hev
    · simp only [MonResult.after, List.singleton_append, List.mem_cons] at hev
      rcases hev with rfl | hrest
      · exact ⟨curr, load curr, rfl⟩
      · exact ih _ ev hrest
    · simp at hev

/-- C19: `mon_memdump` rejects the range, printing only the order error and
reading no memory, exactly when `start >= end`; whenever it prints the order
error or nothing but it, `start >= end` holds, a dump line implies
`start < end`, and the guards `start < 0` and `end > 0xffffffff` are false for
every pair of 32-bit values. -/
theorem mon_memdump_rejects_iff (load : Nat → Nat) (fuel : Nat) (a1 a2 : Int) :
    (mon_memdump load fuel 3 a1 a2 = ⟨[MonEvent.order_error], Status.returned 0⟩ ↔
      u32 a1 ≥ u32 a2) ∧
    (MonEvent.order_error ∈ (mon_memdump load fuel 3 a1 a2).out ↔ u32 a1 ≥ u32 a2) ∧
    ((∃ a v, MonEvent.dump_line a v ∈ (mon_memdump load fuel 3 a1 a2).out) → u32 a1 < u32 a2) ∧
    ¬ (u32 a1 < 0) ∧ ¬ (u32 a2 > 0xffffffff) := by
  have hhi : ¬ (u32 a2 > 0xffffffff) := by
    have := u32_lt a2
    omega
  have hlo : ¬ (u32 a1 < 0) := Nat.not_lt_zero _
  by_cases hge : u32 a1 ≥ u32 a2
  · have heq : mon_memdump load fuel 3 a1 a2 = ⟨[MonEvent.order_error], Status.returned 0⟩ := by
      simp only [mon_memdump]
      rw [if_neg (by decide), if_pos (Or.inl hge)]
    rw [heq]
    refine ⟨⟨fun _ => hge, fun _ => rfl⟩, ⟨fun _ => hge, fun _ => by simp⟩, ?_, hlo, hhi⟩
    rintro ⟨a, v, hmem⟩
    simp at hmem
  · have hcond : ¬ (u32 a1 ≥ u32 a2 ∨ u32 a1 < 0 ∨ u32 a2 > 0xffffffff) := by
      rintro (h1 | h2 | h3)
      · exact hge h1
      · exact hlo h2
      · exact hhi h3
    have heq : mon_memdump load fuel 3 a1 a2 =
        MonResult.after [MonEvent.dump_header (u32 a1) (u32 a2)]
          (dumpLoop load (u32 a2) fuel (u32 a1)) := by
      simp only [mon_memdump]
      rw [if_neg (by decide), if_neg hcond]
    have hnot : MonEvent.order_error ∉ (mon_memdump load fuel 3 a1 a2).out := by
      rw [heq]
      simp only [MonResult.after, List.singleton_append, List.mem_cons]
      rintro (h1 | h2)
      · exact absurd h1 (by simp)
      · obtain ⟨a, v, hav⟩ := dumpLoop_only_lines load (u32 a2) fuel (u32 a1) _ h2
        exact absurd hav (by simp)
    refine ⟨⟨?_, fun h => absurd h hge⟩, ⟨fun h => absurd h hnot, fun h => absurd h hge⟩,
      fun _ => by omega, hlo, hhi⟩
    intro hres
    have : MonEvent.order_error ∈ (mon_memdump load fuel 3 a1 a2).out := by
      rw [hres]; simp
    exact absurd this hnot

/-! ## Page-table inspector: the page loop near the top of the address space -/

theorem showLoop_wraps_forever :
    ∀ (fuel curr : Nat), curr % 4096 = 0 → curr < 4294967296 →
      (showLoop ⟨fun va => some (va / 4096), fun _ => 0x5003⟩ 0xffffffff fuel curr).status
        = Status.running := by
  intro fuel
  induction fuel with
  | zero =>
    intro curr hal hlt
    have hlt2 : curr < 0xffffffff := by omega
    simp only [showLoop, if_pos hlt2]
  | succ k ih =>
    intro curr hal hlt
    have hlt2 : curr < 0xffffffff := by omega
    simp only [showLoop, if_pos hlt2, MonResult.after]
    exact ih ((curr + PGSIZE) % 4294967296) (by unfold PGSIZE; omega) (by omega)

/-- C18 fails on the code. For `start = 0xfffff000`, `end = 0xffffffff` and a
page table that maps every address, the page loop visits 0xfffff000, wraps to
address 0 and goes on from there: it is still running after any number of
iterations, whereas one visited address was claimed. -/
theorem mon_showmappings_wraps_forever :
    (mon_showmappings ⟨fun va => some (va / 4096), fun _ => 0x5003⟩ 3 3
        0xfffff000 0xffffffff) =
      ⟨[MonEvent.show_header 0xfffff000 0xffffffff,
          MonEvent.show_va 0xfffff000, MonEvent.pgdir_walk 0xfffff000,
          MonEvent.show_mapping 0x5000 3,
          MonEvent.show_va 0, MonEvent.pgdir_walk 0, MonEvent.show_mapping 0x5000 3,
          MonEvent.show_va 0x1000, MonEvent.pgdir_walk 0x1000, MonEvent.show_mapping 0x5000 3],
        Status.running⟩ ∧
    ∀ fuel, (mon_showmappings ⟨fun va => some (va / 4096), fun _ => 0x5003⟩ fuel 3
        0xfffff000 0xffffffff).status = Status.running := by
  refine ⟨by decide, ?_⟩
  intro fuel
  have hstart : u32 0xfffff000 = 0xfffff000 := by decide
  have hstop : u32 0xffffffff = 0xffffffff := by decide
  simp only [mon_showmappings, hstart, hstop]
  rw [if_neg (by decide), if_neg (by decide)]
  simp only [MonResult.after]
  exact showLoop_wraps_forever fuel 0xfffff000 (by decide) (by decide)

/-! ## Scheduler: the scan order -/

theorem scanBody_eq_examine (envs : List Env) (st : Nat) (s : Scan) (inc : Nat) :
    scanBody envs st s inc = examine envs s ((st + inc) % envs.length) := rfl

theorem scanLoop_eq_foldl (envs : List Env) (st : Nat) :
    ∀ (todo inc : Nat) (s : Scan),
      scanLoop envs st todo inc s =
        (scanSlots envs.length st todo inc).foldl (examine envs) s := by
  intro todo
  induction todo with
  | zero => intro inc s; rfl
  | succ k ih =>
    intro inc s
    simp only [scanLoop, scanSlots, List.foldl_cons, ih, scanBody_eq_examine]

theorem scanSlots_eq_map (n st : Nat) :
    ∀ (todo inc : Nat),
      scanSlots n st todo inc = (List.range todo).map (fun k => (st + (inc + k)) % n) := by
  intro todo
  induction todo with
  | zero => intro inc; rfl
  | succ k ih =>
    intro inc
    rw [scanSlots, ih (inc + 1), List.range_succ_eq_map, List.map_cons, List.map_map]
    congr 1
    apply List.map_congr_left
    intro a _
    simp only [Function.comp, Nat.succ_eq_add_one]
    congr 2
    omega

theorem slot_ne_of_lt (n st k1 k2 : Nat) (h12 : k1 < k2) (h2 : k2 < n) :
    (st + k1) % n ≠ (st + k2) % n := by
  intro heq
  have hmod : Nat.ModEq n (st + k1) (st + k2) := heq
  have hk : Nat.ModEq n k1 k2 := Nat.ModEq.add_left_cancel' st hmod
  have := Nat.ModEq.eq_of_lt_of_lt hk (by omega) h2
  omega

theorem slot_cover (n c j : Nat) (hc : c < n) (hj : j < n) (hne : j ≠ c) :
    ∃ k, 1 ≤ k ∧ k < n ∧ (c + k) % n = j := by
  rcases Nat.lt_or_gt_of_ne hne with hlt | hgt
  · refine ⟨j + n - c, by omega, by omega, ?_⟩
    have : c + (j + n - c) = j + n := by omega
    rw [this, Nat.add_mod_right, Nat.mod_eq_of_lt hj]
  · refine ⟨j - c, by omega, by omega, ?_⟩
    have : c + (j - c) = j := by omega
    rw [this, Nat.mod_eq_of_lt hj]

theorem scanOrder_incumbent (ENVX : Nat → Nat) (envs : List Env) (c : Fin envs.length)
    (hid : startingEnv ENVX envs (some c) = c.val) :
    scanOrder ENVX envs (some c) =
      (List.range (envs.length - 1)).map (fun k => (c.val + 1 + k) % envs.length) := by
  unfold scanOrder
  rw [hid, scanSlots_eq_map]
  simp only [firstInc]
  apply List.map_congr_left
  intro a _
  congr 1
  omega

theorem scanOrder_incumbent_nodup (ENVX : Nat → Nat) (envs : List Env) (c : Fin envs.length)
    (hid : startingEnv ENVX envs (some c) = c.val) :
    (scanOrder ENVX envs (some c)).Nodup := by
  rw [scanOrder_incumbent ENVX envs c hid]
  apply List.Nodup.map_on _ (List.nodup_range _)
  intro x hx y hy hxy
  rw [List.mem_range] at hx hy
  by_contra hne
  rcases Nat.lt_or_gt_of_ne hne with hlt | hgt
  · have := slot_ne_of_lt envs.length c.val (1 + x) (1 + y) (by omega) (by omega)
    apply this
    rw [← Nat.add_assoc, ← Nat.add_assoc]
    exact hxy
  · have := slot_ne_of_lt envs.length c.val (1 + y) (1 + x) (by omega) (by omega)
    apply this
    rw [← Nat.add_assoc, ← Nat.add_assoc]
    exact hxy.symm

theorem scanOrder_incumbent_mem (ENVX : Nat → Nat) (envs : List Env) (c : Fin envs.length)
    (hid : startingEnv ENVX envs (some c) = c.val) (j : Nat) :
    j ∈ scanOrder ENVX envs (some c) ↔ j < envs.length ∧ j ≠ c.val := by
  rw [scanOrder_incumbent ENVX envs c hid, List.mem_map]
  constructor
  · rintro ⟨k, hk, rfl⟩
    rw [List.mem_range] at hk
    refine ⟨Nat.mod_lt _ (by omega), ?_⟩
    intro heq
    have := slot_ne_of_lt envs.length c.val 0 (1 + k) (by omega) (by omega)
    apply this
    rw [Nat.add_zero, Nat.mod_eq_of_lt c.isLt, ← Nat.add_assoc]
    exact heq.symm
  · rintro ⟨hj, hne⟩
    obtain ⟨k, hk1, hkn, hk⟩ := slot_cover envs.length c.val j c.isLt hj hne
    refine ⟨k - 1, List.mem_range.mpr (by omega), ?_⟩
    have : c.val + 1 + (k - 1) = c.val + k := by omega
    rw [this]
    exact hk

theorem scanOrder_none (ENVX : Nat → Nat) (envs : List Env) :
    scanOrder ENVX envs none = List.range envs.length := by
  unfold scanOrder
  rw [scanSlots_eq_map]
  simp only [firstInc, startingEnv, Nat.sub_zero, Nat.zero_add]
  conv_rhs => rw [← List.map_id (List.range envs.length)]
  apply List.map_congr_left
  intro a ha
  rw [List.mem_range] at ha
  simp only [id]
  exact Nat.mod_eq_of_lt ha

/-- C15: the loop of `sched_yield` is the examination, in order, of the slots
of its scan order. With no incumbent the scan order is 0, 1, ..., N-1, each
slot exactly once. With an incumbent whose id names its own slot `s`, the scan
order is s+1, s+2, ... modulo N, N-1 slots in all: each slot other than `s`
occurs exactly once and `s` does not occur. -/
theorem sched_yield_scan_order (ENVX : Nat → Nat) (envs : List Env) :
    (∀ curenv, scanResult ENVX envs curenv =
      (scanOrder ENVX envs curenv).foldl (examine envs)
        { highestEnv := none, nextEqualEnv := none, highestPri := firstPri envs curenv }) ∧
    scanOrder ENVX envs none = List.range envs.length ∧
    (∀ j, j < envs.length → (scanOrder ENVX envs none).count j = 1) ∧
    (∀ c : Fin envs.length, startingEnv ENVX envs (some c) = c.val →
      scanOrder ENVX envs (some c) =
        (List.range (envs.length - 1)).map (fun k => (c.val + 1 + k) % envs.length) ∧
      (∀ j, j < envs.length → j ≠ c.val → (scanOrder ENVX envs (some c)).count j = 1) ∧
      (scanOrder ENVX envs (some c)).count c.val = 0) := by
  refine ⟨?_, scanOrder_none ENVX envs, ?_, ?_⟩
  · intro curenv
    unfold scanResult scanOrder
    exact scanLoop_eq_foldl envs _ _ _ _
  · intro j hj
    rw [scanOrder_none]
    exact List.count_eq_one_of_mem (List.nodup_range _) (List.mem_range.mpr hj)
  · intro c hid
    refine ⟨scanOrder_incumbent ENVX envs c hid, ?_, ?_⟩
    · intro j hj hne
      exact List.count_eq_one_of_mem (scanOrder_incumbent_nodup ENVX envs c hid)
        ((scanOrder_incumbent_mem ENVX envs c hid j).mpr ⟨hj, hne⟩)
    · apply List.count_eq_zero_of_not_mem
      intro hmem
      exact ((scanOrder_incumbent_mem ENVX envs c hid c.val).mp hmem).2 rfl

/-- Witness for C15: in a table of four slots with the incumbent in slot 2,
whose id 4098 names slot 2, the slots are examined in the order 3, 0, 1. -/
theorem sched_yield_scan_order_witness :
    startingEnv (envxOf 4)
        [⟨4096, EnvStatus.ENV_RUNNABLE, 5⟩, ⟨4097, EnvStatus.ENV_FREE, 0⟩,
          ⟨4098, EnvStatus.ENV_RUNNING, 5⟩, ⟨4099, EnvStatus.ENV_RUNNABLE, 5⟩]
        (some ⟨2, by decide⟩) = 2 ∧
    scanOrder (envxOf 4)
        [⟨4096, EnvStatus.ENV_RUNNABLE, 5⟩, ⟨4097, EnvStatus.ENV_FREE, 0⟩,
          ⟨4098, EnvStatus.ENV_RUNNING, 5⟩, ⟨4099, EnvStatus.ENV_RUNNABLE, 5⟩]
        (some ⟨2, by decide⟩) = [3, 0, 1] :=
  ⟨by decide,
    ((sched_yield_scan_order (envxOf 4)
        [⟨4096, EnvStatus.ENV_RUNNABLE, 5⟩, ⟨4097, EnvStatus.ENV_FREE, 0⟩,
          ⟨4098, EnvStatus.ENV_RUNNING, 5⟩, ⟨4099, EnvStatus.ENV_RUNNABLE, 5⟩]).2.2.2
      ⟨2, by decide⟩ (by decide)).1.trans (by decide)⟩

/-! ## Scheduler: what the scan finds -/

theorem scanBody_rp_none (envs : List Env) (st : Nat) (s : Scan) (inc : Nat)
    (h : runnablePri envs ((st + inc) % envs.length) = none) :
    scanBody envs st s inc = s := by
  unfold runnablePri at h
  cases hget : envs[(st + inc) % envs.length]? with
  | none => exact scanBody_none envs st s inc hget
  | some e =>
    rw [hget] at h
    simp only at h
    by_cases hr : e.env_status = EnvStatus.ENV_RUNNABLE
    · rw [if_pos hr] at h; cases h
    · rw [scanBody_some envs st s inc e hget, if_neg hr]

theorem scanBody_rp_some (envs : List Env) (st : Nat) (s : Scan) (inc : Nat) (q : Int)
    (h : runnablePri envs ((st + inc) % envs.length) = some q) :
    scanBody envs st s inc =
      if q < s.highestPri then
        { highestEnv := some ((st + inc) % envs.length), nextEqualEnv := none, highestPri := q }
      else if s.nextEqualEnv = none ∧ q = s.highestPri then
        { s with nextEqualEnv := some ((st + inc) % envs.length) }
      else s := by
  unfold runnablePri at h
  cases hget : envs[(st + inc) % envs.length]? with
  | none => rw [hget] at h; cases h
  | some e =>
    rw [hget] at h
    simp only at h
    by_cases hr : e.env_status = EnvStatus.ENV_RUNNABLE
    · rw [if_pos hr] at h
      simp only [Option.some.injEq] at h
      subst h
      rw [scanBody_some envs st s inc e hget, if_pos hr]
    · rw [if_neg hr] at h; cases h

theorem ScanInv.keep {envs : List Env} {st inc0 : Nat} {p0 : Int} {inc : Nat} {s : Scan}
    (h : ScanInv envs st inc0 p0 inc s)
    (hlow : ∀ q, runnablePri envs ((st + inc) % envs.length) = some q → s.highestPri ≤ q)
    (hnt : s.highestEnv = none → s.nextEqualEnv = none →
      runnablePri envs ((st + inc) % envs.length) ≠ some p0) :
    ScanInv envs st inc0 p0 (inc + 1) s := by
  refine ⟨h.le_first, ?_, h.none_first, ?_, ?_⟩
  · intro k q hk0 hk hq
    rcases Nat.lt_succ_iff_lt_or_eq.mp hk with hlt | heq
    · exact h.lower k q hk0 hlt hq
    · subst heq
      exact hlow q hq
  · intro i hi
    obtain ⟨k, hk0, hk, hik, hrpk, hlt, hearlier, hties⟩ := h.best i hi
    refine ⟨k, hk0, by omega, hik, hrpk, hlt, hearlier, ?_⟩
    intro t ht
    obtain ⟨k2, h1, h2, h3⟩ := hties t ht
    exact ⟨k2, h1, by omega, h3⟩
  · intro hnone
    rcases h.tie hnone with ⟨hne, hall⟩ | ⟨k, hk0, hk, hnek, hrpk, hearlier⟩
    · left
      refine ⟨hne, ?_⟩
      intro k hk0 hk
      rcases Nat.lt_succ_iff_lt_or_eq.mp hk with hlt | heq
      · exact hall k hk0 hlt
      · subst heq
        exact hnt hnone hne
    · right
      exact ⟨k, hk0, by omega, hnek, hrpk, hearlier⟩

theorem scanBody_inv (envs : List Env) (st inc0 : Nat) (p0 : Int) (inc : Nat) (s : Scan)
    (hinc : inc0 ≤ inc) (h : ScanInv envs st inc0 p0 inc s) :
    ScanInv envs st inc0 p0 (inc + 1) (scanBody envs st s inc) := by
  cases hrp : runnablePri envs ((st + inc) % envs.length) with
  | none =>
    rw [scanBody_rp_none envs st s inc hrp]
    apply h.keep
    · intro q hq; rw [hrp] at hq; cases hq
    · intro _ _ hq; rw [hrp] at hq; cases hq
  | some q =>
    rw [scanBody_rp_some envs st s inc q hrp]
    by_cases hlt : q < s.highestPri
    · rw [if_pos hlt]
      have hle := h.le_first
      refine ⟨by simp only; omega, ?_, ?_, ?_, ?_⟩
      · intro k q' hk0 hk hq'
        simp only
        rcases Nat.lt_succ_iff_lt_or_eq.mp hk with hlt' | heq
        · have := h.lower k q' hk0 hlt' hq'
          omega
        · subst heq
          rw [hrp] at hq'
          simp only [Option.some.injEq] at hq'
          omega
      · intro hnone
        simp at hnone
      · intro i hi
        simp only [Option.some.injEq] at hi
        refine ⟨inc, hinc, by omega, hi.symm, hrp, by simp only; omega, ?_, ?_⟩
        · intro k' q' hk0 hk hq'
          have := h.lower k' q' hk0 hk hq'
          simp only
          omega
        · intro t ht
          simp at ht
      · intro hnone
        simp at hnone
    · rw [if_neg hlt]
      by_cases htie : s.nextEqualEnv = none ∧ q = s.highestPri
      · rw [if_pos htie]
        obtain ⟨hne, hq⟩ := htie
        refine ⟨h.le_first, ?_, h.none_first, ?_, ?_⟩
        · intro k q' hk0 hk hq'
          simp only
          rcases Nat.lt_succ_iff_lt_or_eq.mp hk with hlt' | heq
          · exact h.lower k q' hk0 hlt' hq'
          · subst heq
            rw [hrp] at hq'
            simp only [Option.some.injEq] at hq'
            omega
        · intro i hi
          obtain ⟨k, hk0, hk, hik, hrpk, hlt0, hearlier, _⟩ := h.best i hi
          refine ⟨k, hk0, by omega, hik, hrpk, hlt0, hearlier, ?_⟩
          intro t ht
          simp only [Option.some.injEq] at ht
          exact ⟨inc, hk, by omega, ht.symm⟩
        · intro hnone
          right
          have hp : s.highestPri = p0 := h.none_first hnone
          refine ⟨inc, hinc, by omega, rfl, by rw [hrp, hq, hp], ?_⟩
          rcases h.tie hnone with ⟨_, hall⟩ | ⟨k, _, _, hnek, _, _⟩
          · exact hall
          · rw [hne] at hnek
            cases hnek
      · rw [if_neg htie]
        apply h.keep
        · intro q' hq'
          rw [hrp] at hq'
          simp only [Option.some.injEq] at hq'
          omega
        · intro hnone hne hq'
          rw [hrp] at hq'
          simp only [Option.some.injEq] at hq'
          have hp := h.none_first hnone
          exact htie ⟨hne, by omega⟩

theorem scanLoop_inv (envs : List Env) (st inc0 : Nat) (p0 : Int) :
    ∀ (todo inc : Nat) (s : Scan), inc0 ≤ inc → ScanInv envs st inc0 p0 inc s →
      ScanInv envs st inc0 p0 (inc + todo) (scanLoop envs st todo inc s) := by
  intro todo
  induction todo with
  | zero => intro inc s _ h; simpa [scanLoop] using h
  | succ k ih =>
    intro inc s hinc h
    simp only [scanLoop]
    have := ih (inc + 1) _ (by omega) (scanBody_inv envs st inc0 p0 inc s hinc h)
    have heq : inc + 1 + k = inc + (k + 1) := by omega
    rw [heq] at this
    exact this

theorem scanResult_inv (ENVX : Nat → Nat) (envs : List Env) (curenv : Option (Fin envs.length)) :
    ScanInv envs (startingEnv ENVX envs curenv) (firstInc curenv) (firstPri envs curenv)
      envs.length (scanResult ENVX envs curenv) := by
  have hle : firstInc curenv ≤ envs.length := by
    cases curenv with
    | none => simp [firstInc]
    | some c => simp only [firstInc]; have := c.isLt; omega
  have hinit : ScanInv envs (startingEnv ENVX envs curenv) (firstInc curenv)
      (firstPri envs curenv) (firstInc curenv)
      { highestEnv := none, nextEqualEnv := none, highestPri := firstPri envs curenv } := by
    refine ⟨le_refl _, ?_, fun _ => rfl, ?_, ?_⟩
    · intro k q hk0 hk; omega
    · intro i hi; simp at hi
    · intro _
      left
      exact ⟨rfl, by intro k hk0 hk; omega⟩
  have := scanLoop_inv envs (startingEnv ENVX envs curenv) (firstInc curenv)
    (firstPri envs curenv) (envs.length - firstInc curenv) (firstInc curenv) _ (le_refl _) hinit
  have heq : firstInc curenv + (envs.length - firstInc curenv) = envs.length := by omega
  rw [heq] at this
  exact this

theorem runnablePri_some_iff (envs : List Env) (j : Nat) (q : Int) :
    runnablePri envs j = some q ↔
      ∃ e, envs[j]? = some e ∧ e.env_status = EnvStatus.ENV_RUNNABLE ∧ e.priority = q := by
  unfold runnablePri
  cases hget : envs[j]? with
  | none => simp
  | some e =>
    by_cases hr : e.env_status = EnvStatus.ENV_RUNNABLE
    · simp [hr]
    · simp [hr]

/-- C17: if some examined RUNNABLE slot has a priority strictly below the
initial `highestPri` (the incumbent's priority, or 100 without incumbent),
then `sched_yield` runs the slot of an iteration `k` of its loop such that that
slot is RUNNABLE with priority `m`, `m` is the minimum over all examined
RUNNABLE slots, and every RUNNABLE slot examined before iteration `k` has a
priority strictly above `m`; a tied peer recorded in `nextEqualEnv` is not the
slot that is run. Iteration `k` examines slot `(startingEnv + k) % NENV`. -/
theorem sched_yield_runs_first_minimum (ENVX : Nat → Nat) (envs : List Env)
    (curenv : Option (Fin envs.length))
    (h : ∃ k q, firstInc curenv ≤ k ∧ k < envs.length ∧
      runnablePri envs ((startingEnv ENVX envs curenv + k) % envs.length) = some q ∧
      q < firstPri envs curenv) :
    ∃ k m, firstInc curenv ≤ k ∧ k < envs.length ∧
      sched_yield ENVX envs curenv =
        Outcome.run ((startingEnv ENVX envs curenv + k) % envs.length) ∧
      runnablePri envs ((startingEnv ENVX envs curenv + k) % envs.length) = some m ∧
      (∀ k' q, firstInc curenv ≤ k' → k' < envs.length →
        runnablePri envs ((startingEnv ENVX envs curenv + k') % envs.length) = some q →
        m ≤ q) ∧
      (∀ k' q, firstInc curenv ≤ k' → k' < k →
        runnablePri envs ((startingEnv ENVX envs curenv + k') % envs.length) = some q →
        m < q) ∧
      (∀ t, (scanResult ENVX envs curenv).nextEqualEnv = some t →
        sched_yield ENVX envs curenv ≠ Outcome.run t) := by
  have inv := scanResult_inv ENVX envs curenv
  obtain ⟨k0, q0, hk0, hk0n, hrp0, hq0⟩ := h
  have hlow0 := inv.lower k0 q0 hk0 hk0n hrp0
  cases hhi : (scanResult ENVX envs curenv).highestEnv with
  | none =>
    have := inv.none_first hhi
    omega
  | some i =>
    obtain ⟨k, hk, hkn, hik, hrpk, _, hearlier, hties⟩ := inv.best i hhi
    have hrun : sched_yield ENVX envs curenv = Outcome.run i := by
      simp only [sched_yield, resolve, hhi]
    refine ⟨k, (scanResult ENVX envs curenv).highestPri, hk, hkn, ?_, hrpk, inv.lower,
      hearlier, ?_⟩
    · rw [hrun, hik]
    · intro t ht
      obtain ⟨k2, hk2, hk2n, htk⟩ := hties t ht
      rw [hrun, hik, htk]
      intro heq
      simp only [Outcome.run.injEq] at heq
      exact slot_ne_of_lt envs.length _ k k2 hk2 hk2n heq

/-- Witness for C17: without incumbent, of the RUNNABLE slots 0 (priority 9),
2 and 3 (priority 4 each) the first of priority 4, slot 2, is run. -/
theorem sched_yield_runs_first_minimum_witness :
    sched_yield (envxOf 4)
        [⟨4096, EnvStatus.ENV_RUNNABLE, 9⟩, ⟨4097, EnvStatus.ENV_FREE, 1⟩,
          ⟨4098, EnvStatus.ENV_RUNNABLE, 4⟩, ⟨4099, EnvStatus.ENV_RUNNABLE, 4⟩] none
      = Outcome.run 2 ∧
    ∃ k m, k < 4 ∧
      sched_yield (envxOf 4)
          [⟨4096, EnvStatus.ENV_RUNNABLE, 9⟩, ⟨4097, EnvStatus.ENV_FREE, 1⟩,
            ⟨4098, EnvStatus.ENV_RUNNABLE, 4⟩, ⟨4099, EnvStatus.ENV_RUNNABLE, 4⟩] none
        = Outcome.run ((0 + k) % 4) ∧
      runnablePri
          [⟨4096, EnvStatus.ENV_RUNNABLE, 9⟩, ⟨4097, EnvStatus.ENV_FREE, 1⟩,
            ⟨4098, EnvStatus.ENV_RUNNABLE, 4⟩, ⟨4099, EnvStatus.ENV_RUNNABLE, 4⟩]
          ((0 + k) % 4) = some m :=
  ⟨by decide,
    match sched_yield_runs_first_minimum (envxOf 4)
        [⟨4096, EnvStatus.ENV_RUNNABLE, 9⟩, ⟨4097, EnvStatus.ENV_FREE, 1⟩,
          ⟨4098, EnvStatus.ENV_RUNNABLE, 4⟩, ⟨4099, EnvStatus.ENV_RUNNABLE, 4⟩] none
        ⟨0, 9, by decide, by decide, by decide, by decide⟩ with
    | ⟨k, m, _, hk, hrun, hrp, _⟩ => ⟨k, m, hk, hrun, hrp⟩⟩

/-- C14: for an incumbent whose id names its own slot `s`, if no RUNNABLE slot
has a priority strictly below the incumbent's and some RUNNABLE slot other
than `s` has the incumbent's priority, then `sched_yield` runs slot
`(s + k) % NENV` for the least `k` in 1, ..., NENV-1 at which that slot is
RUNNABLE with the incumbent's priority; the slot differs from `s`, so the
incumbent is not resumed. -/
theorem sched_yield_tie_rotation (ENVX : Nat → Nat) (envs : List Env) (c : Fin envs.length)
    (hid : startingEnv ENVX envs (some c) = c.val)
    (hnolow : ∀ e ∈ envs, e.env_status = EnvStatus.ENV_RUNNABLE →
      (envs.get c).priority ≤ e.priority)
    (htie : ∃ j, j ≠ c.val ∧ runnablePri envs j = some (envs.get c).priority) :
    ∃ k, 1 ≤ k ∧ k < envs.length ∧
      sched_yield ENVX envs (some c) = Outcome.run ((c.val + k) % envs.length) ∧
      (c.val + k) % envs.length ≠ c.val ∧
      runnablePri envs ((c.val + k) % envs.length) = some (envs.get c).priority ∧
      (∀ k', 1 ≤ k' → k' < k →
        runnablePri envs ((c.val + k') % envs.length) ≠ some (envs.get c).priority) := by
  have inv := scanResult_inv ENVX envs (some c)
  rw [hid] at inv
  simp only [firstInc, firstPri] at inv
  have hhi : (scanResult ENVX envs (some c)).highestEnv = none := by
    cases hhi : (scanResult ENVX envs (some c)).highestEnv with
    | none => rfl
    | some i =>
      obtain ⟨k, _, _, _, hrpk, hlt, _, _⟩ := inv.best i hhi
      obtain ⟨e, hget, hr, hpri⟩ := (runnablePri_some_iff envs _ _).mp hrpk
      have := hnolow e (List.getElem?_mem hget) hr
      omega
  rcases inv.tie hhi with ⟨_, hall⟩ | ⟨k, hk1, hkn, hne, hrpk, hearlier⟩
  · obtain ⟨j, hjc, hrpj⟩ := htie
    obtain ⟨e, hget, _, _⟩ := (runnablePri_some_iff envs _ _).mp hrpj
    have hj : j < envs.length := by
      rcases List.getElem?_eq_some.mp hget with ⟨hlt, _⟩
      exact hlt
    obtain ⟨k, hk1, hkn, hk⟩ := slot_cover envs.length c.val j c.isLt hj hjc
    have := hall k hk1 hkn
    rw [hk] at this
    exact absurd hrpj this
  · refine ⟨k, hk1, hkn, ?_, ?_, hrpk, hearlier⟩
    · simp only [sched_yield, resolve, hhi, hne]
    · intro heq
      have := slot_ne_of_lt envs.length c.val 0 k (by omega) hkn
      apply this
      rw [Nat.add_zero, Nat.mod_eq_of_lt c.isLt]
      exact heq.symm

/-- Witness for C14: the RUNNING incumbent sits in slot 3 of four slots; slots
0 and 2 are RUNNABLE at its priority 5 and slot 1 at priority 7; slot 0, the
first after slot 3 in circular order, is run. -/
theorem sched_yield_tie_rotation_witness :
    sched_yield (envxOf 4)
        [⟨4096, EnvStatus.ENV_RUNNABLE, 5⟩, ⟨4097, EnvStatus.ENV_RUNNABLE, 7⟩,
          ⟨4098, EnvStatus.ENV_RUNNABLE, 5⟩, ⟨4099, EnvStatus.ENV_RUNNING, 5⟩]
        (some ⟨3, by decide⟩)
      = Outcome.run 0 ∧
    ∃ k, 1 ≤ k ∧ k < 4 ∧
      sched_yield (envxOf 4)
          [⟨4096, EnvStatus.ENV_RUNNABLE, 5⟩, ⟨4097, EnvStatus.ENV_RUNNABLE, 7⟩,
            ⟨4098, EnvStatus.ENV_RUNNABLE, 5⟩, ⟨4099, EnvStatus.ENV_RUNNING, 5⟩]
          (some ⟨3, by decide⟩)
        = Outcome.run ((3 + k) % 4) ∧ (3 + k) % 4 ≠ 3 :=
  ⟨by decide,
    match sched_yield_tie_rotation (envxOf 4)
        [⟨4096, EnvStatus.ENV_RUNNABLE, 5⟩, ⟨4097, EnvStatus.ENV_RUNNABLE, 7⟩,
          ⟨4098, EnvStatus.ENV_RUNNABLE, 5⟩, ⟨4099, EnvStatus.ENV_RUNNING, 5⟩]
        ⟨3, by decide⟩ (by decide) (by decide) ⟨0, by decide, by decide⟩ with
    | ⟨k, hk1, hk4, hrun, hne, _⟩ => ⟨k, hk1, hk4, hrun, hne⟩⟩

end JOS
